import Mathlib

/-!
Verification of the ImageToBitmap conversion engine.

The development shallowly embeds the conversion pipeline shared by the two
entry points of the repository:

* `src/Command Line Version/imgtobmp.py`, function `main`;
* `src/Source/imagetobitmap.py`, function `convert_image_to_bitmap`.

The quantized image produced by the external imaging library is modelled as
an abstract indexed pixel grid (`IndexedImage`); everything downstream of it
(RGB565 color packing with byte swap, bit packing into a bitstream, byte
chunking, header fields, output-path derivation, and the filesystem effects
of the emitter) is translated directly from the Python source.
-/

deriving instance DecidableEq for Except

namespace ImgToBmp

/-- ASCII lowercasing of a string, modelling `str.lower()` as applied to
path suffixes such as `".PY"`. -/
def strLower (s : String) : String :=
  String.mk (s.data.map Char.toLower)

/-- An indexed (palette) image as the engine sees it after quantization:
`pixel x y` is the value returned by `img.getpixel((x, y))`. -/
structure IndexedImage where
  width : Nat
  height : Nat
  pixel : Nat → Nat → Nat

/-- The bits contributed by one pixel, from the inner loop
`for bit in range(bits, 0, -1): ... pixel & (1 << bit-1)`:
bit positions `bits-1, bits-2, ..., 0` of the pixel value, in that order. -/
def pixelBitGroup (bits pixel : Nat) : List Bool :=
  (List.range bits).map (fun k => pixel.testBit (bits - 1 - k))

/-- The full bitstring `image_bitstring` built by
`for y in range(img.height): for x in range(img.width): ...`. -/
def imageBitstring (img : IndexedImage) (bits : Nat) : List Bool :=
  (List.range img.height).flatMap (fun y =>
    (List.range img.width).flatMap (fun x =>
      pixelBitGroup bits (img.pixel x y)))

/-- `int(value, 2)` on a (possibly short) chunk of the bitstring: the
first listed bit is the most significant. -/
def bitsToNat (l : List Bool) : Nat :=
  l.foldl (fun acc b => 2 * acc + (if b then 1 else 0)) 0

/-- The byte values written as `\xHH`, from
`for i in range(0, bitmap_bits, 8): value = image_bitstring[i:i+8];
color = int(value, 2)`.  Each step consumes `image_bitstring[i:i+8]`;
a final chunk shorter than 8 bits is converted by `int(value, 2)` as is. -/
def chunkBytes : List Bool → List Nat
  | b0 :: b1 :: b2 :: b3 :: b4 :: b5 :: b6 :: b7 :: rest =>
      bitsToNat [b0, b1, b2, b3, b4, b5, b6, b7] :: chunkBytes rest
  | [] => []
  | l => [bitsToNat l]

/-- The RGB565 packing
`((R & 0xF8) << 8) | ((G & 0xFC) << 3) | (B >> 3)`. -/
def pack565 (r g b : Nat) : Nat :=
  ((r &&& 0xF8) <<< 8) ||| ((g &&& 0xFC) <<< 3) ||| (b >>> 3)

/-- The byte swap `((color565 & 0xff) << 8) + ((color565 & 0xff00) >> 8)`. -/
def swapBytes (c : Nat) : Nat :=
  ((c &&& 0xff) <<< 8) + ((c &&& 0xff00) >>> 8)

/-- One palette entry of the output, packed and byte-swapped. -/
def packEntry (r g b : Nat) : Nat :=
  swapBytes (pack565 r g b)

/-- The palette word list, from
`for color in range(1 << bits): ... palette[color*3], palette[color*3+1],
palette[color*3+2]`.  `palette` is the flat list returned by
`img.getpalette()`, modelled as a function from flat index to channel. -/
def paletteWords (palette : Nat → Nat) (bits : Nat) : List Nat :=
  (List.range (1 <<< bits)).map (fun c =>
    packEntry (palette (3 * c)) (palette (3 * c + 1)) (palette (3 * c + 2)))

/-- The data content of the emitted module: the five header constants, the
`PALETTE` word list and the byte values of the `_bitmap` literal, exactly as
the `f.write` sequence renders them. -/
structure Output where
  height : Nat
  width : Nat
  colors : Nat
  bits : Nat
  bpp : Nat
  palette : List Nat
  bitmapBytes : List Nat
  deriving DecidableEq, Repr

/-- The emitter: assembles the output module from the quantized image, its
flat palette and the bit depth, following the write sequence of the source
(`HEIGHT`, `WIDTH`, `COLORS = 1 << bits`, `BITS = len(image_bitstring)`,
`BPP`, `PALETTE`, `_bitmap`). -/
def emitOutput (img : IndexedImage) (palette : Nat → Nat) (bits : Nat) : Output :=
  let bitstring := imageBitstring img bits
  { height := img.height
    width := img.width
    colors := 1 <<< bits
    bits := bitstring.length
    bpp := bits
    palette := paletteWords palette bits
    bitmapBytes := chunkBytes bitstring }

/-- The 1-bit threshold `lambda p: 255 if p > 127 else 0` applied to the
grayscale value of a pixel. -/
def thresholdPoint (p : Nat) : Nat :=
  if p > 127 then 255 else 0

/-- The palette forced in the 1-bit branch:
`[0, 0, 0, 255, 255, 255] + [0, 0, 0] * 254`. -/
def bwPaletteFlat : List Nat :=
  [0, 0, 0, 255, 255, 255] ++ (List.replicate 254 [0, 0, 0]).flatten

/-- Modelled from the spec: a `w`-bit value written most-significant-bit
first, as the spec describes each pixel's contribution to the bitstream.
Used only to compare against `pixelBitGroup`, which is the code's loop. -/
def natBitsMSB : Nat → Nat → List Bool
  | 0, _ => []
  | w + 1, n => decide (n / 2 ^ w % 2 = 1) :: natBitsMSB w n

/-- Modelled from the spec: the pixels enumerated row-major
(y outer, x inner, row 0 first, each row left to right). -/
def rowMajorPixels (img : IndexedImage) : List Nat :=
  (List.range img.height).flatMap (fun y =>
    (List.range img.width).map (fun x => img.pixel x y))

/-- The last partial group of bits of a bitstring: the final
`length % 8` bits (empty when the length is a multiple of 8). -/
def lastChunk (l : List Bool) : List Bool :=
  l.drop (l.length - l.length % 8)

/-- A filesystem path at the granularity the engine manipulates it:
parent directory components, stem, and extension (`pathlib` suffix,
including the leading dot; `""` when there is none). -/
structure FsPath where
  dir : List String
  stem : String
  suffix : String
  deriving DecidableEq, Repr

/-- `pathlib.Path.with_suffix`. -/
def FsPath.with_suffix (p : FsPath) (s : String) : FsPath :=
  { p with suffix := s }

/-- The output path of the CLI (`imgtobmp.py` line 39):
`Path(args.output) if args.output else img_path.with_suffix(".py")`. -/
def cliOutPath (output : Option FsPath) (img_path : FsPath) : FsPath :=
  match output with
  | some o => o
  | none => img_path.with_suffix ".py"

/-- The output path of the engine (`imagetobitmap.py` lines 59-63):
the same defaulting, followed by
`if out_path.suffix.lower() != ".py": out_path = out_path.with_suffix(".py")`. -/
def guiOutPath (output : Option FsPath) (img_path : FsPath) : FsPath :=
  let out_path :=
    match output with
    | some o => o
    | none => img_path.with_suffix ".py"
  if strLower out_path.suffix ≠ ".py" then out_path.with_suffix ".py" else out_path

/-- The failure taxonomy of the engine: `ValueError` for a bad bpp,
`FileNotFoundError` for a missing source image, and the I/O error that
`open(..., "w")` raises when the output location is unwritable. -/
inductive ConvError
  | invalidParameter
  | sourceNotFound
  | writeError
  deriving DecidableEq, Repr

/-- The filesystem state the engine touches: the set of existing
directories (the root `[]` always exists) and the existing files with
their contents — `some doc` for an artifact the engine wrote, `none`
for any pre-existing file (for instance the source image). -/
structure FS where
  dirs : List (List String)
  files : List (FsPath × Option Output)
  deriving DecidableEq, Repr

/-- All ancestors of a directory, itself included. -/
def dirPrefixes (d : List String) : List (List String) :=
  (List.range (d.length + 1)).map (fun k => d.take k)

/-- `out_path.parent.mkdir(parents=True, exist_ok=True)`. -/
def FS.mkdirParents (fs : FS) (d : List String) : FS :=
  { fs with dirs := dirPrefixes d ++ fs.dirs }

/-- Whether a directory exists (the root always does). -/
def FS.hasDir (fs : FS) (d : List String) : Prop :=
  d = [] ∨ d ∈ fs.dirs

instance (fs : FS) (d : List String) : Decidable (fs.hasDir d) := by
  unfold FS.hasDir; exact inferInstance

/-- `Path.is_file` as the engine uses it: the path names an existing file. -/
def FS.isFile (fs : FS) (p : FsPath) : Prop :=
  p ∈ fs.files.map Prod.fst

instance (fs : FS) (p : FsPath) : Decidable (fs.isFile p) := by
  unfold FS.isFile; exact inferInstance

/-- `open(out_path, "w")` then writing the module: creates the file or
truncates and replaces an existing one; fails when the parent directory
does not exist. -/
def FS.writeFile (fs : FS) (p : FsPath) (doc : Output) : Except ConvError FS :=
  if fs.hasDir p.dir then
    .ok { fs with files := (p, some doc) :: fs.files.filter (fun e => decide (e.1 ≠ p)) }
  else
    .error .writeError

/-- Content of the file at `p`, if any. -/
def FS.readFile (fs : FS) (p : FsPath) : Option (Option Output) :=
  (fs.files.find? (fun e => decide (e.1 = p))).map Prod.snd

/-- The writing tail of `convert_image_to_bitmap` (lines 109-132):
`mkdir(parents=True, exist_ok=True)` on the parent, then the write. -/
def guiEmit (fs : FS) (p : FsPath) (doc : Output) : FS × Except ConvError Unit :=
  let fs1 := fs.mkdirParents p.dir
  match fs1.writeFile p doc with
  | .ok fs2 => (fs2, .ok ())
  | .error e => (fs1, .error e)

/-- The writing tail of the CLI (`with open(out_path, "w") as f`), which
performs no `mkdir`. -/
def cliEmit (fs : FS) (p : FsPath) (doc : Output) : FS × Except ConvError Unit :=
  match fs.writeFile p doc with
  | .ok fs2 => (fs2, .ok ())
  | .error e => (fs, .error e)

/-- `convert_image_to_bitmap` of `src/Source/imagetobitmap.py` over the
filesystem model: the bpp range check, the `is_file` check, the output
path derivation, then emission.  The quantized indexed image and its
flat palette stand for what the external imaging library produces from
the source file; the function returns the filesystem state reached on
every path together with the outcome. -/
def convert_image_to_bitmap (fs : FS) (image_file : FsPath) (bits_per_pixel : Int)
    (output : Option FsPath) (img : IndexedImage) (palette : Nat → Nat) :
    FS × Except ConvError FsPath :=
  if bits_per_pixel < 1 ∨ bits_per_pixel > 8 then
    (fs, .error .invalidParameter)
  else if ¬ fs.isFile image_file then
    (fs, .error .sourceNotFound)
  else
    let out_path := guiOutPath output image_file
    let doc := emitOutput img palette bits_per_pixel.toNat
    let fs1 := fs.mkdirParents out_path.dir
    match fs1.writeFile out_path doc with
    | .ok fs2 => (fs2, .ok out_path)
    | .error e => (fs1, .error e)

/-! Concrete inputs used by counterexamples and witnesses. -/

/-- A 3×1 indexed image whose pixels have palette indices 1, 2, 10. -/
def demo3x1 : IndexedImage :=
  ⟨3, 1, fun x _ => [1, 2, 10].getD x 0⟩

/-- A 0×0 indexed image. -/
def demo0x0 : IndexedImage :=
  ⟨0, 0, fun _ _ => 0⟩

/-- A 2×2 solid image of quantized white pixels. -/
def demoWhite2x2 : IndexedImage :=
  ⟨2, 2, fun _ _ => thresholdPoint 255⟩

/-- A flat palette assigning channel value 0 everywhere. -/
def demoPalette : Nat → Nat := fun _ => 0

/-- A source-image path. -/
def demoImgPath : FsPath := ⟨[], "image", ".png"⟩

/-- An output path with the wrong extension. -/
def demoTxtPath : FsPath := ⟨[], "out", ".txt"⟩

/-- An output path inside a subdirectory. -/
def demoSubPath : FsPath := ⟨["sub"], "out", ".py"⟩

/-- A filesystem containing only the source image. -/
def demoFS : FS := ⟨[], [(demoImgPath, none)]⟩

/-- An empty filesystem. -/
def demoEmptyFS : FS := ⟨[], []⟩

/-- A concrete output document. -/
def demoDoc : Output := emitOutput demo3x1 demoPalette 4

/-- A filesystem where `sub/` exists and `sub/out.py` already holds an
older artifact. -/
def demoOldFS : FS :=
  ⟨[["sub"]], [(demoSubPath, some (emitOutput demo0x0 demoPalette 1))]⟩

/-! Helper lemmas. -/

theorem bitsToNat_foldl_lt (l : List Bool) :
    ∀ acc : Nat, l.foldl (fun acc b => 2 * acc + (if b then 1 else 0)) acc <
      (acc + 1) * 2 ^ l.length := by
  induction l with
  | nil => intro acc; simp
  | cons b t ih =>
    intro acc
    calc t.foldl (fun acc b => 2 * acc + (if b then 1 else 0))
          (2 * acc + (if b then 1 else 0)) <
        (2 * acc + (if b then 1 else 0) + 1) * 2 ^ t.length := ih _
      _ ≤ (acc + 1) * 2 ^ (b :: t).length := by
          rw [List.length_cons, pow_succ]
          have hb : (if b then 1 else 0) ≤ 1 := by split <;> omega
          calc (2 * acc + (if b then 1 else 0) + 1) * 2 ^ t.length ≤
              ((acc + 1) * 2) * 2 ^ t.length := by
                apply Nat.mul_le_mul_right; omega
            _ = (acc + 1) * (2 ^ t.length * 2) := by ring

theorem bitsToNat_lt (l : List Bool) : bitsToNat l < 2 ^ l.length := by
  simpa using bitsToNat_foldl_lt l 0

theorem chunkBytes_nil : chunkBytes [] = [] := rfl

theorem chunkBytes_eight (l : List Bool) (h : 8 ≤ l.length) :
    chunkBytes l = bitsToNat (l.take 8) :: chunkBytes (l.drop 8) := by
  match l, h with
  | b0 :: b1 :: b2 :: b3 :: b4 :: b5 :: b6 :: b7 :: rest, _ => rfl
  | [], h => simp at h
  | [_], h => simp at h
  | [_, _], h => simp at h
  | [_, _, _], h => simp at h
  | [_, _, _, _], h => simp at h
  | [_, _, _, _, _], h => simp at h
  | [_, _, _, _, _, _], h => simp at h
  | [_, _, _, _, _, _, _], h => simp at h

theorem chunkBytes_short (l : List Bool) (h0 : l ≠ []) (h : l.length < 8) :
    chunkBytes l = [bitsToNat l] := by
  match l, h with
  | [], _ => exact absurd rfl h0
  | [_], _ => rfl
  | [_, _], _ => rfl
  | [_, _, _], _ => rfl
  | [_, _, _, _], _ => rfl
  | [_, _, _, _, _], _ => rfl
  | [_, _, _, _, _, _], _ => rfl
  | [_, _, _, _, _, _, _], _ => rfl
  | _ :: _ :: _ :: _ :: _ :: _ :: _ :: _ :: _, h => simp at h; omega

theorem chunkBytes_length (l : List Bool) :
    (chunkBytes l).length = (l.length + 7) / 8 := by
  by_cases h8 : 8 ≤ l.length
  · rw [chunkBytes_eight l h8, List.length_cons, chunkBytes_length (l.drop 8),
      List.length_drop]
    omega
  · match l with
    | [] => rfl
    | a :: t =>
      rw [chunkBytes_short (a :: t) (by simp) (by omega)]
      simp at h8 ⊢
      omega
termination_by l.length
decreasing_by simp [List.length_drop]; omega

theorem chunkBytes_getLast (l : List Bool) (h : l.length % 8 ≠ 0) :
    (chunkBytes l).getLast? = some (bitsToNat (lastChunk l)) := by
  by_cases h8 : 8 ≤ l.length
  · have hlen : (l.drop 8).length % 8 ≠ 0 := by
      rw [List.length_drop]; omega
    have htail := chunkBytes_getLast (l.drop 8) hlen
    rw [chunkBytes_eight l h8]
    have hne : chunkBytes (l.drop 8) ≠ [] := by
      intro hnil
      rw [hnil] at htail
      simp at htail
    match hc : chunkBytes (l.drop 8) with
    | [] => exact absurd hc hne
    | c :: cs =>
      rw [List.getLast?_cons_cons, ← hc, htail]
      congr 2
      unfold lastChunk
      rw [List.drop_drop, List.length_drop]
      congr 1
      omega
  · match l with
    | [] => simp at h
    | a :: t =>
      rw [chunkBytes_short (a :: t) (by simp) (by omega)]
      unfold lastChunk
      have : (a :: t).length % 8 = (a :: t).length := Nat.mod_eq_of_lt (by omega)
      rw [this, Nat.sub_self, List.drop_zero]
      rfl
termination_by l.length
decreasing_by simp [List.length_drop]; omega

theorem lastChunk_lt (l : List Bool) :
    bitsToNat (lastChunk l) < 2 ^ (l.length % 8) := by
  have h1 := bitsToNat_lt (lastChunk l)
  have h2 : (lastChunk l).length = l.length % 8 := by
    unfold lastChunk
    rw [List.length_drop]
    omega
  rwa [h2] at h1

theorem sum_map_const {α : Type} (l : List α) (c : Nat) :
    (l.map (fun _ => c)).sum = l.length * c := by
  induction l with
  | nil => simp
  | cons a t ih => simp [ih, Nat.succ_mul]; omega

theorem imageBitstring_length (img : IndexedImage) (bits : Nat) :
    (imageBitstring img bits).length = img.height * (img.width * bits) := by
  rw [imageBitstring, List.length_flatMap]
  have hrow : ∀ y, (((List.range img.width).flatMap fun x =>
      pixelBitGroup bits (img.pixel x y)).length) = img.width * bits := by
    intro y
    rw [List.length_flatMap]
    have : ∀ x, (pixelBitGroup bits (img.pixel x y)).length = bits := by
      intro x; simp [pixelBitGroup]
    calc ((List.range img.width).map fun x =>
          (pixelBitGroup bits (img.pixel x y)).length).sum =
        ((List.range img.width).map fun _ => bits).sum := by
          congr 1; exact List.map_congr_left (fun x _ => this x)
      _ = img.width * bits := by rw [sum_map_const, List.length_range]
  calc ((List.range img.height).map fun y =>
        ((List.range img.width).flatMap fun x =>
          pixelBitGroup bits (img.pixel x y)).length).sum =
      ((List.range img.height).map fun _ => img.width * bits).sum := by
        congr 1; exact List.map_congr_left (fun y _ => hrow y)
    _ = img.height * (img.width * bits) := by rw [sum_map_const, List.length_range]

theorem and_255_eq_mod (c : Nat) : c &&& 255 = c % 256 := by
  have h := Nat.and_pow_two_sub_one_eq_mod c 8
  norm_num at h
  exact h

theorem and_ff00_shiftRight (c : Nat) : (c &&& 65280) >>> 8 = c / 256 % 256 := by
  apply Nat.eq_of_testBit_eq
  intro i
  have h1 : (65280 : Nat) = (2 ^ 8 - 1) <<< 8 := by decide
  have h2 : c / 256 = c >>> 8 := by rw [Nat.shiftRight_eq_div_pow]
  have h3 : (256 : Nat) = 2 ^ 8 := by norm_num
  rw [Nat.testBit_shiftRight, Nat.testBit_and, h1, Nat.testBit_shiftLeft, h2, h3,
    Nat.testBit_mod_two_pow, Nat.testBit_shiftRight, Nat.testBit_two_pow_sub_one]
  have h5 : 8 + i - 8 = i := by omega
  rw [h5]
  simp [Bool.and_comm]

theorem swapBytes_eq (c : Nat) : swapBytes c = 256 * (c % 256) + c / 256 % 256 := by
  have h : (255 : Nat) = 0xff := by norm_num
  rw [swapBytes, ← h, and_255_eq_mod, and_ff00_shiftRight, Nat.shiftLeft_eq]
  ring

theorem pack565_lt (r g b : Nat) (hb : b ≤ 255) : pack565 r g b < 65536 := by
  have h16 : (65536 : Nat) = 2 ^ 16 := by norm_num
  rw [pack565, h16]
  apply Nat.or_lt_two_pow
  apply Nat.or_lt_two_pow
  · have hr : r &&& 0xF8 ≤ 0xF8 := Nat.and_le_right
    rw [Nat.shiftLeft_eq]
    calc (r &&& 0xF8) * 2 ^ 8 ≤ 0xF8 * 2 ^ 8 := Nat.mul_le_mul_right _ hr
      _ < 2 ^ 16 := by norm_num
  · have hg : g &&& 0xFC ≤ 0xFC := Nat.and_le_right
    rw [Nat.shiftLeft_eq]
    calc (g &&& 0xFC) * 2 ^ 3 ≤ 0xFC * 2 ^ 3 := Nat.mul_le_mul_right _ hg
      _ < 2 ^ 16 := by norm_num
  · have : b >>> 3 ≤ b := by
      rw [Nat.shiftRight_eq_div_pow]
      exact Nat.div_le_self b (2 ^ 3)
    omega

theorem pixelBitGroup_eq_natBitsMSB (w p : Nat) :
    pixelBitGroup w p = natBitsMSB w p := by
  induction w with
  | zero => rfl
  | succ w ih =>
    rw [pixelBitGroup, List.range_succ_eq_map, List.map_cons, List.map_map,
      natBitsMSB, ← ih, pixelBitGroup]
    congr 1
    · rw [Nat.testBit_to_div_mod]
      norm_num
    · apply List.map_congr_left
      intro k _
      simp only [Function.comp]
      congr 1
      omega

theorem mem_dirPrefixes_self (d : List String) : d ∈ dirPrefixes d := by
  rw [dirPrefixes]
  apply List.mem_map.mpr
  exact ⟨d.length, by simp [List.mem_range], by simp⟩

theorem mkdirParents_hasDir (fs : FS) (d : List String) :
    (fs.mkdirParents d).hasDir d := by
  right
  show d ∈ dirPrefixes d ++ fs.dirs
  exact List.mem_append_left _ (mem_dirPrefixes_self d)

theorem writeFile_mkdirParents (fs : FS) (p : FsPath) (doc : Output) :
    (fs.mkdirParents p.dir).writeFile p doc =
      Except.ok { fs.mkdirParents p.dir with
        files := (p, some doc) ::
          (fs.mkdirParents p.dir).files.filter (fun e => decide (e.1 ≠ p)) } := by
  rw [FS.writeFile, if_pos (mkdirParents_hasDir fs p.dir)]

theorem readFile_writeFile (fs : FS) (p : FsPath) (doc : Output) :
    (FS.mk fs.dirs ((p, some doc) :: fs.files.filter (fun e => decide (e.1 ≠ p)))).readFile p =
      some (some doc) := by
  rw [FS.readFile]
  simp [List.find?]

theorem convert_ok (fs : FS) (image_file : FsPath) (bpp : Int)
    (output : Option FsPath) (img : IndexedImage) (palette : Nat → Nat)
    (h1 : 1 ≤ bpp) (h2 : bpp ≤ 8) (hf : fs.isFile image_file) :
    (convert_image_to_bitmap fs image_file bpp output img palette).2 =
      Except.ok (guiOutPath output image_file) := by
  rw [convert_image_to_bitmap, if_neg (by omega), if_neg (not_not_intro hf)]
  simp only [writeFile_mkdirParents]

/-! Claim theorems. -/

/-- Claim C1, as stated, is false on the code: for the 3×1 image at
`bpp = 4` whose third pixel has palette index 10, the second emitted byte
is `0x0a` — the third pixel's index sits in the LOW nibble with a zero
high nibble — whereas the claim requires the index in the high nibble
with a zero low nibble, i.e. a second byte of `0xa0 = 160`. -/
theorem C1_counterexample :
    (emitOutput demo3x1 demoPalette 4).bitmapBytes = [18, 10] ∧
    ¬ (emitOutput demo3x1 demoPalette 4).bitmapBytes = [18, 160] := by
  constructor <;> decide

/-- Claim C1 (amended): when the total bit count `W*H*bpp` is not a
multiple of 8, the final byte of the `_bitmap` literal is the value of
the last partial group of pixel bits right-aligned, i.e. zero-padded in
its HIGH-order bits (the byte is less than `2 ^ (W*H*bpp % 8)`); in
particular, for a 3×1 image at `bpp = 4` the second emitted byte has the
third pixel's 4-bit index in its low nibble and a zero high nibble. -/
theorem C1_final_byte_padding (img : IndexedImage) (palette : Nat → Nat) (bits : Nat)
    (h1 : 1 ≤ bits) (h2 : bits ≤ 8)
    (hr : (img.width * img.height * bits) % 8 ≠ 0) :
    (emitOutput img palette bits).bitmapBytes.getLast? =
      some (bitsToNat (lastChunk (imageBitstring img bits))) ∧
    bitsToNat (lastChunk (imageBitstring img bits)) <
      2 ^ ((img.width * img.height * bits) % 8) ∧
    (emitOutput demo3x1 demoPalette 4).bitmapBytes = [18, 10] := by
  have hlen : (imageBitstring img bits).length = img.width * img.height * bits := by
    rw [imageBitstring_length]; ring
  have hr' : (imageBitstring img bits).length % 8 ≠ 0 := by rw [hlen]; exact hr
  refine ⟨?_, ?_, by decide⟩
  · exact chunkBytes_getLast (imageBitstring img bits) hr'
  · have := lastChunk_lt (imageBitstring img bits)
    rwa [hlen] at this

/-- Claim C1 (amended) at a concrete input: the 3×1 image at `bpp = 4`,
whose total bit count 12 is not a multiple of 8. -/
theorem C1_final_byte_padding_witness :
    1 ≤ 4 ∧ 4 ≤ 8 ∧ (demo3x1.width * demo3x1.height * 4) % 8 ≠ 0 ∧
    ((emitOutput demo3x1 demoPalette 4).bitmapBytes.getLast? =
        some (bitsToNat (lastChunk (imageBitstring demo3x1 4))) ∧
      bitsToNat (lastChunk (imageBitstring demo3x1 4)) <
        2 ^ ((demo3x1.width * demo3x1.height * 4) % 8) ∧
      (emitOutput demo3x1 demoPalette 4).bitmapBytes = [18, 10]) :=
  ⟨by decide, by decide, by decide,
    C1_final_byte_padding demo3x1 demoPalette 4 (by decide) (by decide) (by decide)⟩

/-- Claim C2: for every indexed image and every bpp in [1,8], the logical
bitstream built by the code equals the concatenation, over the pixels in
row-major order (y outer, x inner), of each pixel's bpp-bit index written
most-significant-bit first. -/
theorem C2_bitstream_rowMajor (img : IndexedImage) (bits : Nat)
    (h1 : 1 ≤ bits) (h2 : bits ≤ 8) :
    imageBitstring img bits = (rowMajorPixels img).flatMap (natBitsMSB bits) := by
  simp only [imageBitstring, rowMajorPixels, List.flatMap_assoc, List.flatMap_map,
    Function.comp, pixelBitGroup_eq_natBitsMSB]

/-- Claim C2 at a concrete input: the 3×1 image at `bpp = 4`. -/
theorem C2_bitstream_rowMajor_witness :
    1 ≤ 4 ∧ 4 ≤ 8 ∧
    imageBitstring demo3x1 4 = (rowMajorPixels demo3x1).flatMap (natBitsMSB 4) :=
  ⟨by decide, by decide, C2_bitstream_rowMajor demo3x1 4 (by decide) (by decide)⟩

/-- Claim C3: for every RGB triple with channels in 0..255, the color
packer computes `(R&0xF8)<<8 | (G&0xFC)<<3 | (B>>3)` and then
unconditionally swaps the two bytes of the 16-bit word (low byte first);
`(248,252,255)` packs to `0xFFFF` before and after the swap, and
`(248,0,0)` packs to `0xF800` before and `0x00F8` after. -/
theorem C3_colorPacker (r g b : Nat) (hr : r ≤ 255) (hg : g ≤ 255) (hb : b ≤ 255) :
    packEntry r g b = swapBytes (pack565 r g b) ∧
    pack565 r g b < 65536 ∧
    packEntry r g b = 256 * (pack565 r g b % 256) + pack565 r g b / 256 ∧
    pack565 248 252 255 = 0xFFFF ∧ packEntry 248 252 255 = 0xFFFF ∧
    pack565 248 0 0 = 0xF800 ∧ packEntry 248 0 0 = 0x00F8 := by
  have hlt := pack565_lt r g b hb
  refine ⟨rfl, hlt, ?_, by decide, by decide, by decide, by decide⟩
  rw [packEntry, swapBytes_eq]
  have : pack565 r g b / 256 < 256 := by omega
  rw [Nat.mod_eq_of_lt this]

/-- Claim C3 at a concrete input: the non-symmetric triple `(248,0,0)`. -/
theorem C3_colorPacker_witness :
    (248 ≤ 255 ∧ 0 ≤ 255 ∧ 0 ≤ 255) ∧
    (packEntry 248 0 0 = swapBytes (pack565 248 0 0) ∧
      pack565 248 0 0 < 65536 ∧
      packEntry 248 0 0 = 256 * (pack565 248 0 0 % 256) + pack565 248 0 0 / 256 ∧
      pack565 248 252 255 = 0xFFFF ∧ packEntry 248 252 255 = 0xFFFF ∧
      pack565 248 0 0 = 0xF800 ∧ packEntry 248 0 0 = 0x00F8) :=
  ⟨⟨by decide, by decide, by decide⟩,
    C3_colorPacker 248 0 0 (by decide) (by decide) (by decide)⟩

set_option maxRecDepth 4000 in
/-- Claim C4: at bpp = 1 quantization is the fixed luminance threshold
`255 if L > 127 else 0`: a pixel of luminance L > 127 contributes the
1-bit group of palette index 1 and a pixel with L ≤ 127 contributes that
of index 0; the forced palette starts with (0,0,0) then (255,255,255);
a solid white image yields an all-1-bits bitstream, a solid black image
all 0-bits; luminance exactly 127 maps to index 0 and 128 to index 1. -/
theorem C4_threshold1bit :
    (∀ L : Nat, 127 < L → pixelBitGroup 1 (thresholdPoint L) = natBitsMSB 1 1) ∧
    (∀ L : Nat, L ≤ 127 → pixelBitGroup 1 (thresholdPoint L) = natBitsMSB 1 0) ∧
    bwPaletteFlat.take 6 = [0, 0, 0, 255, 255, 255] ∧
    bwPaletteFlat.length = 768 ∧
    (∀ img : IndexedImage, (∀ x y, img.pixel x y = thresholdPoint 255) →
      imageBitstring img 1 = List.replicate (img.height * img.width) true) ∧
    (∀ img : IndexedImage, (∀ x y, img.pixel x y = thresholdPoint 0) →
      imageBitstring img 1 = List.replicate (img.height * img.width) false) ∧
    pixelBitGroup 1 (thresholdPoint 127) = natBitsMSB 1 0 ∧
    pixelBitGroup 1 (thresholdPoint 128) = natBitsMSB 1 1 := by
  have hsolid : ∀ (v : Nat) (c : Bool), pixelBitGroup 1 v = [c] →
      ∀ img : IndexedImage, (∀ x y, img.pixel x y = v) →
      imageBitstring img 1 = List.replicate (img.height * img.width) c := by
    intro v c hv img hpix
    apply List.eq_replicate_iff.mpr
    constructor
    · rw [imageBitstring_length]; ring
    · intro b hb
      simp only [imageBitstring, List.mem_flatMap, List.mem_range] at hb
      obtain ⟨y, _, x, _, hb⟩ := hb
      rw [hpix x y, hv] at hb
      simpa using hb
  refine ⟨?_, ?_, by decide, by decide, ?_, ?_, by decide, by decide⟩
  · intro L h
    have ht : thresholdPoint L = 255 := by simp [thresholdPoint, h]
    rw [ht]; decide
  · intro L h
    have ht : thresholdPoint L = 0 := by
      simp only [thresholdPoint, ite_eq_right_iff]
      omega
    rw [ht]; decide
  · exact hsolid 255 true (by decide)
  · exact hsolid 0 false (by decide)

/-- Claim C4 at concrete inputs: luminances 200, 50, 127 and 128, and
the solid white 2×2 image. -/
theorem C4_threshold1bit_witness :
    127 < 200 ∧ 50 ≤ 127 ∧
    pixelBitGroup 1 (thresholdPoint 200) = natBitsMSB 1 1 ∧
    pixelBitGroup 1 (thresholdPoint 50) = natBitsMSB 1 0 ∧
    imageBitstring demoWhite2x2 1 =
      List.replicate (demoWhite2x2.height * demoWhite2x2.width) true ∧
    pixelBitGroup 1 (thresholdPoint 127) = natBitsMSB 1 0 ∧
    pixelBitGroup 1 (thresholdPoint 128) = natBitsMSB 1 1 :=
  ⟨by decide, by decide,
    C4_threshold1bit.1 200 (by decide),
    C4_threshold1bit.2.1 50 (by decide),
    C4_threshold1bit.2.2.2.2.1 demoWhite2x2 (fun _ _ => rfl),
    C4_threshold1bit.2.2.2.2.2.2.1,
    C4_threshold1bit.2.2.2.2.2.2.2⟩

/-- Claim C5: for every input image and bpp in [1,8], the emitted header
satisfies COLORS = 2^bpp and BITS = WIDTH*HEIGHT*bpp, the number of
`\xHH` bytes in the `_bitmap` literal is ceil(BITS/8), and the PALETTE
sequence has exactly 2^bpp entries. -/
theorem C5_header (img : IndexedImage) (palette : Nat → Nat) (bits : Nat)
    (h1 : 1 ≤ bits) (h2 : bits ≤ 8) :
    (emitOutput img palette bits).colors = 2 ^ bits ∧
    (emitOutput img palette bits).bits = img.width * img.height * bits ∧
    (emitOutput img palette bits).bitmapBytes.length =
      (img.width * img.height * bits + 7) / 8 ∧
    (emitOutput img palette bits).palette.length = 2 ^ bits := by
  have hlen : (imageBitstring img bits).length = img.width * img.height * bits := by
    rw [imageBitstring_length]; ring
  refine ⟨?_, ?_, ?_, ?_⟩
  · show 1 <<< bits = 2 ^ bits
    rw [Nat.shiftLeft_eq, one_mul]
  · exact hlen
  · show (chunkBytes (imageBitstring img bits)).length = _
    rw [chunkBytes_length, hlen]
  · show (paletteWords palette bits).length = _
    rw [paletteWords, List.length_map, List.length_range, Nat.shiftLeft_eq, one_mul]

/-- Claim C5 at a concrete input: the 3×1 image at bpp = 4. -/
theorem C5_header_witness :
    1 ≤ 4 ∧ 4 ≤ 8 ∧
    ((emitOutput demo3x1 demoPalette 4).colors = 2 ^ 4 ∧
      (emitOutput demo3x1 demoPalette 4).bits = demo3x1.width * demo3x1.height * 4 ∧
      (emitOutput demo3x1 demoPalette 4).bitmapBytes.length =
        (demo3x1.width * demo3x1.height * 4 + 7) / 8 ∧
      (emitOutput demo3x1 demoPalette 4).palette.length = 2 ^ 4) :=
  ⟨by decide, by decide, C5_header demo3x1 demoPalette 4 (by decide) (by decide)⟩

/-- Claim C6: a 0×0 input image converts without failure, with BITS = 0
and an empty byte literal; with the source present and a valid bpp the
whole conversion call succeeds. -/
theorem C6_zeroDim (img : IndexedImage) (palette : Nat → Nat) (bits : Nat)
    (hw : img.width = 0) (hh : img.height = 0) :
    (emitOutput img palette bits).bits = 0 ∧
    (emitOutput img palette bits).bitmapBytes = [] ∧
    (∀ (fs : FS) (image_file : FsPath) (output : Option FsPath) (bpp : Int),
      1 ≤ bpp → bpp ≤ 8 → fs.isFile image_file →
      (convert_image_to_bitmap fs image_file bpp output img palette).2 =
        Except.ok (guiOutPath output image_file)) := by
  have hempty : imageBitstring img bits = [] := by
    rw [imageBitstring, hh]
    rfl
  refine ⟨?_, ?_, ?_⟩
  · show (imageBitstring img bits).length = 0
    rw [hempty]; rfl
  · show chunkBytes (imageBitstring img bits) = []
    rw [hempty]; rfl
  · intro fs image_file output bpp h1 h2 hf
    exact convert_ok fs image_file bpp output img palette h1 h2 hf

/-- Claim C6 at a concrete input: the 0×0 image, converted at bpp = 1
with the source image present. -/
theorem C6_zeroDim_witness :
    demo0x0.width = 0 ∧ demo0x0.height = 0 ∧
    (emitOutput demo0x0 demoPalette 1).bits = 0 ∧
    (emitOutput demo0x0 demoPalette 1).bitmapBytes = [] ∧
    (convert_image_to_bitmap demoFS demoImgPath 1 none demo0x0 demoPalette).2 =
      Except.ok (guiOutPath none demoImgPath) :=
  ⟨rfl, rfl,
    (C6_zeroDim demo0x0 demoPalette 1 rfl rfl).1,
    (C6_zeroDim demo0x0 demoPalette 1 rfl rfl).2.1,
    (C6_zeroDim demo0x0 demoPalette 1 rfl rfl).2.2 demoFS demoImgPath none 1
      (by decide) (by decide) (by decide)⟩

/-- Claim C7, as stated, is false on the code: the CLI entry point
(`imgtobmp.py`) writes a supplied output path as-is, with no extension
correction; for the supplied output path `out.txt` the written path
keeps suffix `.txt`. -/
theorem C7_counterexample :
    cliOutPath (some demoTxtPath) demoImgPath = demoTxtPath ∧
    (cliOutPath (some demoTxtPath) demoImgPath).suffix = ".txt" ∧
    ".txt" ≠ ".py" :=
  ⟨rfl, rfl, by decide⟩

/-- Claim C7 (amended): both entry points default the output path to the
input path with its extension replaced by `.py`; the engine entry point
`convert_image_to_bitmap` additionally corrects a supplied output path
whose extension is not `.py` (case-insensitively), while the CLI entry
point uses a supplied output path unchanged. -/
theorem C7_outputPath (img_path o : FsPath) (h : strLower o.suffix ≠ ".py") :
    guiOutPath none img_path = img_path.with_suffix ".py" ∧
    cliOutPath none img_path = img_path.with_suffix ".py" ∧
    guiOutPath (some o) img_path = o.with_suffix ".py" ∧
    cliOutPath (some o) img_path = o := by
  have hpy : strLower ".py" = ".py" := by decide
  refine ⟨?_, rfl, ?_, rfl⟩
  · simp [guiOutPath, FsPath.with_suffix, hpy]
  · simp [guiOutPath, h]

/-- Claim C7 (amended) at concrete inputs: default derivation from
`image.png`, and correction of the supplied path `out.txt`. -/
theorem C7_outputPath_witness :
    strLower demoTxtPath.suffix ≠ ".py" ∧
    (guiOutPath none demoImgPath = demoImgPath.with_suffix ".py" ∧
      cliOutPath none demoImgPath = demoImgPath.with_suffix ".py" ∧
      guiOutPath (some demoTxtPath) demoImgPath = demoTxtPath.with_suffix ".py" ∧
      cliOutPath (some demoTxtPath) demoImgPath = demoTxtPath) :=
  ⟨by decide, C7_outputPath demoImgPath demoTxtPath (by decide)⟩

/-- Claim C8, as stated, is false on the code: the CLI emitter performs
no directory creation; on a filesystem with no directories, writing to
`sub/out.py` fails and leaves the filesystem unchanged. -/
theorem C8_counterexample :
    (cliEmit demoEmptyFS demoSubPath demoDoc).2 = Except.error ConvError.writeError ∧
    (cliEmit demoEmptyFS demoSubPath demoDoc).1 = demoEmptyFS := by
  constructor <;> decide

/-- Claim C8 (amended): the engine entry point creates any missing parent
directories of the output path before writing and overwrites an existing
file there without confirmation; the CLI entry point performs no
directory creation — its write only succeeds when the parent directory
already exists, in which case it overwrites likewise. -/
theorem C8_emitter (fs : FS) (p : FsPath) (doc : Output) :
    (guiEmit fs p doc).2 = Except.ok () ∧
    (guiEmit fs p doc).1.readFile p = some (some doc) ∧
    (guiEmit fs p doc).1.hasDir p.dir ∧
    (fs.hasDir p.dir →
      (cliEmit fs p doc).2 = Except.ok () ∧
      (cliEmit fs p doc).1.readFile p = some (some doc)) := by
  have hgui : guiEmit fs p doc =
      ({ fs.mkdirParents p.dir with
          files := (p, some doc) ::
            (fs.mkdirParents p.dir).files.filter (fun e => decide (e.1 ≠ p)) },
        Except.ok ()) := by
    rw [guiEmit]
    simp only [writeFile_mkdirParents]
  refine ⟨by rw [hgui], ?_, ?_, ?_⟩
  · rw [hgui]
    exact readFile_writeFile (fs.mkdirParents p.dir) p doc
  · rw [hgui]
    exact mkdirParents_hasDir fs p.dir
  · intro h
    have hw : fs.writeFile p doc =
        Except.ok { fs with
          files := (p, some doc) :: fs.files.filter (fun e => decide (e.1 ≠ p)) } := by
      rw [FS.writeFile, if_pos h]
    have hcli : cliEmit fs p doc =
        ({ fs with
            files := (p, some doc) :: fs.files.filter (fun e => decide (e.1 ≠ p)) },
          Except.ok ()) := by
      rw [cliEmit]
      simp only [hw]
    exact ⟨by rw [hcli], by rw [hcli]; exact readFile_writeFile fs p doc⟩

/-- Claim C8 (amended) at a concrete input: writing into `sub/`, which
already exists for the CLI case and already holds an older file that the
write replaces. -/
theorem C8_emitter_witness :
    demoOldFS.hasDir demoSubPath.dir ∧
    (guiEmit demoOldFS demoSubPath demoDoc).2 = Except.ok () ∧
    (guiEmit demoOldFS demoSubPath demoDoc).1.readFile demoSubPath = some (some demoDoc) ∧
    (guiEmit demoOldFS demoSubPath demoDoc).1.hasDir demoSubPath.dir ∧
    (cliEmit demoOldFS demoSubPath demoDoc).2 = Except.ok () ∧
    (cliEmit demoOldFS demoSubPath demoDoc).1.readFile demoSubPath = some (some demoDoc) :=
  ⟨by decide,
    (C8_emitter demoOldFS demoSubPath demoDoc).1,
    (C8_emitter demoOldFS demoSubPath demoDoc).2.1,
    (C8_emitter demoOldFS demoSubPath demoDoc).2.2.1,
    ((C8_emitter demoOldFS demoSubPath demoDoc).2.2.2 (by decide)).1,
    ((C8_emitter demoOldFS demoSubPath demoDoc).2.2.2 (by decide)).2⟩

/-- Claim C9: the engine entry point fails with InvalidParameter if and
only if bpp is outside [1,8], and fails with SourceNotFound when bpp is
valid and the source image path does not name an existing file; both
failures are the synchronous result of the call. -/
theorem C9_failures (fs : FS) (image_file : FsPath) (bpp : Int)
    (output : Option FsPath) (img : IndexedImage) (palette : Nat → Nat) :
    ((convert_image_to_bitmap fs image_file bpp output img palette).2 =
        Except.error ConvError.invalidParameter ↔ (bpp < 1 ∨ bpp > 8)) ∧
    (1 ≤ bpp → bpp ≤ 8 → ¬ fs.isFile image_file →
      (convert_image_to_bitmap fs image_file bpp output img palette).2 =
        Except.error ConvError.sourceNotFound) := by
  constructor
  · constructor
    · intro h
      by_contra hc
      rw [convert_image_to_bitmap, if_neg hc] at h
      by_cases hf : fs.isFile image_file
      · rw [if_neg (not_not_intro hf)] at h
        simp only [writeFile_mkdirParents] at h
        simp at h
      · rw [if_pos hf] at h
        simp at h
    · intro h
      rw [convert_image_to_bitmap, if_pos h]
  · intro h1 h2 hf
    rw [convert_image_to_bitmap, if_neg (by omega), if_pos hf]

/-- Claim C9 at concrete inputs: bpp = 0 with the source present, and
bpp = 4 with the source missing. -/
theorem C9_failures_witness :
    ((0 : Int) < 1 ∨ (0 : Int) > 8) ∧
    (convert_image_to_bitmap demoFS demoImgPath 0 none demo3x1 demoPalette).2 =
      Except.error ConvError.invalidParameter ∧
    (1 ≤ (4 : Int) ∧ (4 : Int) ≤ 8 ∧ ¬ demoEmptyFS.isFile demoImgPath) ∧
    (convert_image_to_bitmap demoEmptyFS demoImgPath 4 none demo3x1 demoPalette).2 =
      Except.error ConvError.sourceNotFound :=
  ⟨by decide,
    (C9_failures demoFS demoImgPath 0 none demo3x1 demoPalette).1.mpr (by decide),
    ⟨by decide, by decide, by decide⟩,
    (C9_failures demoEmptyFS demoImgPath 4 none demo3x1 demoPalette).2
      (by decide) (by decide) (by decide)⟩

/-- Claim C10: on the two validation failure paths the engine returns
with the filesystem unchanged — no file is created or modified and no
directory is created — and the bpp check is performed first: an
out-of-range bpp yields InvalidParameter regardless of whether the
source file exists. -/
theorem C10_validationOrder (fs : FS) (image_file : FsPath) (bpp : Int)
    (output : Option FsPath) (img : IndexedImage) (palette : Nat → Nat) :
    ((bpp < 1 ∨ bpp > 8) →
      convert_image_to_bitmap fs image_file bpp output img palette =
        (fs, Except.error ConvError.invalidParameter)) ∧
    (1 ≤ bpp → bpp ≤ 8 → ¬ fs.isFile image_file →
      convert_image_to_bitmap fs image_file bpp output img palette =
        (fs, Except.error ConvError.sourceNotFound)) := by
  constructor
  · intro h
    rw [convert_image_to_bitmap, if_pos h]
  · intro h1 h2 hf
    rw [convert_image_to_bitmap, if_neg (by omega), if_pos hf]

/-- Claim C10 at concrete inputs: bpp = 9 with the source present (the
bpp failure wins and the filesystem is untouched), and bpp = 4 with a
missing source (again no filesystem change). -/
theorem C10_validationOrder_witness :
    ((9 : Int) < 1 ∨ (9 : Int) > 8) ∧
    convert_image_to_bitmap demoFS demoImgPath 9 none demo3x1 demoPalette =
      (demoFS, Except.error ConvError.invalidParameter) ∧
    (1 ≤ (4 : Int) ∧ (4 : Int) ≤ 8 ∧ ¬ demoEmptyFS.isFile demoImgPath) ∧
    convert_image_to_bitmap demoEmptyFS demoImgPath 4 none demo3x1 demoPalette =
      (demoEmptyFS, Except.error ConvError.sourceNotFound) :=
  ⟨by decide,
    (C10_validationOrder demoFS demoImgPath 9 none demo3x1 demoPalette).1 (by decide),
    ⟨by decide, by decide, by decide⟩,
    (C10_validationOrder demoEmptyFS demoImgPath 4 none demo3x1 demoPalette).2
      (by decide) (by decide) (by decide)⟩

end ImgToBmp
